import Mathlib

/-!
Verification of the diffdev repository (Python sources under src/diffdev/).

The development shallowly embeds the code that the checked properties are
about:

* `src/diffdev/cli.py`, class `CLI`: the interactive command loop `CLI.run`,
  its two history slots `last_patch` and `last_rolled_back_patch`, and the
  dispatch on the commands `exit`, `select`, `undo`, `redo` and free-text
  instructions.  The collaborators the loop calls (`PatchManager`,
  `ContextManager`, `LLMClient`) are external to the loop; each call site is
  modelled by an `Outcome` describing how the call returns: normally, by
  raising an ordinary `Exception` (caught by the `except Exception` handlers
  in `cli.py`), or by raising `KeyboardInterrupt` (caught only by the
  `except KeyboardInterrupt` handler at the loop boundary, cli.py line 239;
  in Python `KeyboardInterrupt` is not an `Exception` subclass, so the inner
  handlers do not catch it).
* `src/diffdev/gitignore.py`, class `GitignoreParser`: pattern loading and
  `should_ignore`.  The stdlib functions `fnmatch.fnmatch` and
  `os.path.basename` are external collaborators and are passed as function
  parameters.
* `src/diffdev/tree_utils.py`, classes `ProjectTreeGenerator` and
  `FileContentFormatter`: directory-tree rendering over a model filesystem.
  Python's stable `sorted` with key `(not is_dir, name.lower())` is modelled
  by a stable insertion sort by the same key.  All files in the model
  filesystem are readable text files (the `UnicodeDecodeError` / read-error
  branches of `format_file_content` concern I/O faults outside the model).
-/

namespace Diffdev

/-! ## Embedding of src/diffdev/cli.py (class CLI, method run) -/

/-- The two history slots set up in `CLI.__init__` (cli.py lines 155-156):
`self.last_patch` and `self.last_rolled_back_patch`, both `Optional[str]`
holding a patch path. -/
structure CLIState where
  last_patch : Option String
  last_rolled_back_patch : Option String
deriving DecidableEq

/-- How one call into a collaborator returns: a normal value, an ordinary
`Exception` carrying its message, or a `KeyboardInterrupt`. -/
inductive Outcome (α : Type) where
  | ok (val : α)
  | exc (msg : String)
  | intr
deriving DecidableEq

/-- `true` exactly when the outcome is a normal return. -/
def Outcome.isOk : Outcome α → Bool
  | .ok _ => true
  | _ => false

/-- One command read by the loop (cli.py line 184), after lowercasing and
dispatch: `exit`, `select`, `undo`, `redo`, or anything else, which is
treated as a free-text instruction for the model. -/
inductive Command where
  | exit
  | select
  | undo
  | redo
  | instruction (text : String)

/-- A call the loop makes into the patch engine (`PatchManager`).  These are
the only operations that touch files on disk. -/
inductive EngineCall where
  | rollback (patch : String)
  | applyPatch (patch : String)
  | generatePatch
deriving DecidableEq

/-- Whether the loop body ends the `while True` loop (`break` on `exit`)
or proceeds to the next iteration. -/
inductive LoopCtl where
  | cont
  | brk
deriving DecidableEq

/-- Outcomes of the collaborator calls a single loop iteration may make:
`context.select_files` (returning the number of selected files, 0 for a
falsy result), `patch_manager.rollback`, `patch_manager.apply_patch` in the
redo branch, `context.get_messages`, `llm.send_prompt`,
`patch_manager.generate_patch` (returning the patch path), and
`patch_manager.apply_patch` in the instruction branch. -/
structure Env where
  selectRes : Outcome Nat
  rollbackRes : Outcome Unit
  redoApplyRes : Outcome Unit
  messagesRes : Outcome Unit
  promptRes : Outcome Unit
  generateRes : Outcome String
  applyRes : Outcome Unit
deriving DecidableEq

/-- Observable result of one iteration of the command loop: loop control,
the history slots afterwards, the patch-engine calls issued (in order), the
messages printed, and whether the `except KeyboardInterrupt` handler at the
loop boundary (cli.py lines 239-241) ran. -/
structure StepResult where
  ctl : LoopCtl
  state : CLIState
  calls : List EngineCall
  prints : List String
  interrupted : Bool
deriving DecidableEq

/-- One iteration of the `while True` loop of `CLI.run` (cli.py lines
182-245), given the command and the outcomes of the collaborator calls.
Branch by branch this mirrors the Python dispatch:

* `exit` (line 186): `break`.
* `select` (lines 189-195): `select_files` never touches the slots; an
  `Exception` it raises is caught by the loop-level `except Exception`
  (line 243), a `KeyboardInterrupt` by the loop-level handler (line 239).
* `undo` (lines 197-207): only when `last_patch` is set is
  `rollback(last_patch)` called; on success the slots are swapped
  (lines 202-203); an `Exception` is caught at line 204 leaving the slots
  unchanged; a `KeyboardInterrupt` propagates to the loop handler.
* `redo` (lines 209-219): symmetric, via `apply_patch`.
* free text (lines 221-237): line 224 clears `last_rolled_back_patch`
  BEFORE the `try`; then `get_messages`, `send_prompt`, `generate_patch`
  and `apply_patch` run in order; only after `apply_patch` returns is
  `last_patch` set (line 233); any `Exception` is caught at line 236. -/
def step (s : CLIState) (c : Command) (env : Env) : StepResult :=
  match c with
  | .exit => ⟨.brk, s, [], [], false⟩
  | .select =>
    match env.selectRes with
    | .ok n =>
      if n ≠ 0 then
        ⟨.cont, s, [], ["Updated context with " ++ toString n ++ " files."], false⟩
      else
        ⟨.cont, s, [], ["File selection cancelled or no files selected."], false⟩
    | .exc msg => ⟨.cont, s, [], ["Error: " ++ msg], false⟩
    | .intr => ⟨.cont, s, [], ["\nOperation cancelled."], true⟩
  | .undo =>
    match s.last_patch with
    | some p =>
      match env.rollbackRes with
      | .ok _ =>
        ⟨.cont, ⟨none, some p⟩, [.rollback p], ["Changes rolled back successfully."], false⟩
      | .exc msg =>
        ⟨.cont, s, [.rollback p], ["Error rolling back changes: " ++ msg], false⟩
      | .intr =>
        ⟨.cont, s, [.rollback p], ["\nOperation cancelled."], true⟩
    | none => ⟨.cont, s, [], ["No changes to undo."], false⟩
  | .redo =>
    match s.last_rolled_back_patch with
    | some p =>
      match env.redoApplyRes with
      | .ok _ =>
        ⟨.cont, ⟨some p, none⟩, [.applyPatch p], ["Changes reapplied successfully."], false⟩
      | .exc msg =>
        ⟨.cont, s, [.applyPatch p], ["Error reapplying changes: " ++ msg], false⟩
      | .intr =>
        ⟨.cont, s, [.applyPatch p], ["\nOperation cancelled."], true⟩
    | none => ⟨.cont, s, [], ["No changes to redo."], false⟩
  | .instruction _ =>
    let s1 : CLIState := ⟨s.last_patch, none⟩
    match env.messagesRes with
    | .exc msg => ⟨.cont, s1, [], ["\nError: " ++ msg], false⟩
    | .intr => ⟨.cont, s1, [], ["\nOperation cancelled."], true⟩
    | .ok _ =>
      match env.promptRes with
      | .exc msg => ⟨.cont, s1, [], ["\nError: " ++ msg], false⟩
      | .intr => ⟨.cont, s1, [], ["\nOperation cancelled."], true⟩
      | .ok _ =>
        match env.generateRes with
        | .exc msg => ⟨.cont, s1, [.generatePatch], ["\nError: " ++ msg], false⟩
        | .intr => ⟨.cont, s1, [.generatePatch], ["\nOperation cancelled."], true⟩
        | .ok patch_path =>
          match env.applyRes with
          | .ok _ =>
            ⟨.cont, ⟨some patch_path, none⟩, [.generatePatch, .applyPatch patch_path],
              ["\nChanges applied successfully."], false⟩
          | .exc msg =>
            ⟨.cont, s1, [.generatePatch, .applyPatch patch_path], ["\nError: " ++ msg], false⟩
          | .intr =>
            ⟨.cont, s1, [.generatePatch, .applyPatch patch_path],
              ["\nOperation cancelled."], true⟩

/-- The slot state set up by `CLI.__init__`: both slots empty. -/
def initState : CLIState := ⟨none, none⟩

/-- Running the command loop over a list of commands with their collaborator
outcomes, starting from `s`.  `exit` breaks the loop; remaining input is
not consumed. -/
def runCommands : CLIState → List (Command × Env) → CLIState
  | s, [] => s
  | s, (c, e) :: rest =>
    match (step s c e).ctl with
    | .cont => runCommands (step s c e).state rest
    | .brk => (step s c e).state

/-- `True` when at most one of the two history slots is occupied. -/
def slotsExclusive (s : CLIState) : Prop :=
  s.last_patch = none ∨ s.last_rolled_back_patch = none

/-- All collaborator calls succeed; `generate_patch` yields `patch_001`. -/
def envAllOk : Env :=
  ⟨.ok 1, .ok (), .ok (), .ok (), .ok (), .ok "patch_001", .ok ()⟩

/-- `instrSuccess env = true` exactly when every call of the free-text
instruction branch returns normally, i.e. the instruction succeeds end to
end. -/
def instrSuccess (env : Env) : Bool :=
  env.messagesRes.isOk && env.promptRes.isOk && env.generateRes.isOk && env.applyRes.isOk

theorem step_slotsExclusive (s : CLIState) (c : Command) (env : Env)
    (h : slotsExclusive s) : slotsExclusive (step s c env).state := by
  cases c with
  | exit => exact h
  | select =>
    rcases hs : env.selectRes with n | msg | _ <;> simp only [step, hs]
    · split <;> exact h
    · exact h
    · exact h
  | undo =>
    rcases hp : s.last_patch with _ | p <;>
      rcases hr : env.rollbackRes with _ | msg | _ <;>
      simp only [step, hp, hr] <;>
      first
      | exact h
      | exact Or.inl rfl
  | redo =>
    rcases hp : s.last_rolled_back_patch with _ | p <;>
      rcases hr : env.redoApplyRes with _ | msg | _ <;>
      simp only [step, hp, hr] <;>
      first
      | exact h
      | exact Or.inl rfl
      | exact Or.inr rfl
  | instruction text =>
    rcases hm : env.messagesRes with _ | msg | _ <;>
      rcases hpr : env.promptRes with _ | msg2 | _ <;>
      rcases hg : env.generateRes with pth | msg3 | _ <;>
      rcases ha : env.applyRes with _ | msg4 | _ <;>
      simp only [step, hm, hpr, hg, ha] <;> exact Or.inr rfl

theorem runCommands_slotsExclusive :
    ∀ (cmds : List (Command × Env)) (s : CLIState), slotsExclusive s →
      slotsExclusive (runCommands s cmds) := by
  intro cmds
  induction cmds with
  | nil => intro s h; exact h
  | cons ce rest ih =>
    intro s h
    rcases ce with ⟨c, e⟩
    unfold runCommands
    have h' := step_slotsExclusive s c e h
    cases hctl : (step s c e).ctl with
    | cont => exact ih _ h'
    | brk => exact h'

/-- Collaborator outcomes where `context.get_messages` raises an ordinary
exception; a later `generate_patch` (never reached) would yield
`patch_002`. -/
def envMsgFail : Env :=
  { envAllOk with messagesRes := .exc "network error", generateRes := .ok "patch_002" }

/-- Collaborator outcomes where `patch_manager.rollback` raises an ordinary
exception whose message reports a missing backup. -/
def envBackupMissing : Env :=
  { envAllOk with rollbackRes := .exc "BackupMissing" }

/-- Collaborator outcomes where `patch_manager.rollback` is interrupted by
`KeyboardInterrupt`. -/
def envIntr : Env :=
  { envAllOk with rollbackRes := .intr }

/-- C1: across every sequence of CLI commands starting from the freshly
initialised CLI, the `last_patch` slot and the `last_rolled_back_patch`
slot are never both occupied — in particular they are never both occupied
by the same patch identity. -/
theorem c1_slots_never_both_same_patch (cmds : List (Command × Env)) :
    (runCommands initState cmds).last_patch = none ∨
      (runCommands initState cmds).last_rolled_back_patch = none :=
  runCommands_slotsExclusive cmds initState (Or.inl rfl)

/-- C2 counterexample: apply a patch (`patch_001`), undo it (so it sits in
`last_rolled_back_patch`, available for redo), then issue a free-text
instruction whose `get_messages` call fails.  The instruction fails, yet
the `HistorySlot` is not left as it was: `last_rolled_back_patch` has been
cleared (cli.py line 224 clears it before the `try`), so the rolled-back
patch is no longer available for redo. -/
theorem c2_counterexample :
    runCommands initState
        [(.instruction "add feature", envAllOk), (.undo, envAllOk)] =
      ⟨none, some "patch_001"⟩ ∧
    runCommands initState
        [(.instruction "add feature", envAllOk), (.undo, envAllOk),
          (.instruction "try again", envMsgFail)] =
      ⟨none, none⟩ :=
  ⟨rfl, rfl⟩

/-- C2 amended: entering a free-text instruction clears
`last_rolled_back_patch` unconditionally, before any of the instruction's
collaborator calls run; if the instruction fails anywhere, `last_patch` is
unchanged, but a previously rolled-back patch is no longer available for
redo. -/
theorem c2_amended_eager_redo_clear (s : CLIState) (text : String) (env : Env) :
    (step s (.instruction text) env).state.last_rolled_back_patch = none ∧
      (instrSuccess env = false →
        (step s (.instruction text) env).state.last_patch = s.last_patch) := by
  rcases hm : env.messagesRes with _ | m1 | _ <;>
    rcases hpr : env.promptRes with _ | m2 | _ <;>
    rcases hg : env.generateRes with pth | m3 | _ <;>
    rcases ha : env.applyRes with _ | m4 | _ <;>
    simp_all [step, instrSuccess, Outcome.isOk]

/-- C2 amended, instantiated: with `last_rolled_back_patch = some "p0"` and
a failing instruction, the redo slot ends empty while `last_patch` is
unchanged. -/
theorem c2_witness :
    (step ⟨none, some "p0"⟩ (.instruction "x") envMsgFail).state.last_rolled_back_patch =
      none ∧
    (step ⟨none, some "p0"⟩ (.instruction "x") envMsgFail).state.last_patch =
      CLIState.last_patch ⟨none, some "p0"⟩ :=
  ⟨(c2_amended_eager_redo_clear ⟨none, some "p0"⟩ "x" envMsgFail).1,
    (c2_amended_eager_redo_clear ⟨none, some "p0"⟩ "x" envMsgFail).2 rfl⟩

/-- C3 counterexample: a rollback failure whose message reports a missing
backup is caught by the `except Exception` handler at cli.py line 204 and
printed; the loop then continues and processes the next command (here a
successful instruction).  The interactive session does not terminate. -/
theorem c3_counterexample :
    (step ⟨some "patch_000", none⟩ .undo envBackupMissing).ctl = .cont ∧
    (step ⟨some "patch_000", none⟩ .undo envBackupMissing).prints =
      ["Error rolling back changes: BackupMissing"] ∧
    runCommands ⟨some "patch_000", none⟩
        [(.undo, envBackupMissing), (.instruction "next", envAllOk)] =
      ⟨some "patch_001", none⟩ :=
  ⟨rfl, rfl, rfl⟩

/-- C3 amended: every ordinary exception raised during undo or redo
processing — including a `BackupMissing` or restore error, which in
cli.py is an ordinary exception — is caught at the undo/redo branch,
printed, and the command loop continues with the slots unchanged; no such
error terminates the session. -/
theorem c3_amended_all_errors_recovered (s : CLIState) (p msg : String) (env : Env) :
    (s.last_patch = some p → env.rollbackRes = .exc msg →
      (step s .undo env).ctl = .cont ∧ (step s .undo env).state = s ∧
        (step s .undo env).prints = ["Error rolling back changes: " ++ msg]) ∧
    (s.last_rolled_back_patch = some p → env.redoApplyRes = .exc msg →
      (step s .redo env).ctl = .cont ∧ (step s .redo env).state = s ∧
        (step s .redo env).prints = ["Error reapplying changes: " ++ msg]) := by
  constructor <;> intro h1 h2 <;> simp [step, h1, h2]

/-- C3 amended, instantiated at a failing rollback. -/
theorem c3_witness :
    (step ⟨some "patch_000", none⟩ .undo envBackupMissing).ctl = .cont ∧
    (step ⟨some "patch_000", none⟩ .undo envBackupMissing).state = ⟨some "patch_000", none⟩ ∧
    (step ⟨some "patch_000", none⟩ .undo envBackupMissing).prints =
      ["Error rolling back changes: " ++ "BackupMissing"] :=
  (c3_amended_all_errors_recovered ⟨some "patch_000", none⟩ "patch_000" "BackupMissing"
    envBackupMissing).1 rfl rfl

/-- C4: an `undo` issued while `last_patch` is empty prints
"No changes to undo.", makes no patch-engine call (hence mutates no file),
leaves the slots untouched, and continues the loop. -/
theorem c4_undo_empty_noop (s : CLIState) (env : Env) (h : s.last_patch = none) :
    step s .undo env = ⟨.cont, s, [], ["No changes to undo."], false⟩ := by
  simp [step, h]

/-- C4, instantiated at the freshly initialised CLI. -/
theorem c4_witness :
    step initState .undo envAllOk =
      ⟨.cont, initState, [], ["No changes to undo."], false⟩ :=
  c4_undo_empty_noop initState envAllOk rfl

/-- C5: with a tracked patch `p`, a successful rollback via `undo` sets
`last_rolled_back_patch` to exactly `p` and clears `last_patch`; if the
rollback raises (exception or interrupt), neither slot changes. -/
theorem c5_undo_slot_update (s : CLIState) (p : String) (env : Env)
    (h : s.last_patch = some p) :
    (env.rollbackRes = .ok () → (step s .undo env).state = ⟨none, some p⟩) ∧
    (∀ msg, env.rollbackRes = .exc msg → (step s .undo env).state = s) ∧
    (env.rollbackRes = .intr → (step s .undo env).state = s) := by
  refine ⟨fun hr => ?_, fun msg hr => ?_, fun hr => ?_⟩ <;> simp [step, h, hr]

/-- C5, instantiated at a successful rollback of `patch_000`. -/
theorem c5_witness :
    (step ⟨some "patch_000", none⟩ .undo envAllOk).state = ⟨none, some "patch_000"⟩ :=
  (c5_undo_slot_update ⟨some "patch_000", none⟩ "patch_000" envAllOk rfl).1 rfl

/-- C6: an `undo` with tracked patch `p` issues exactly one engine call,
`rollback p`; a `redo` with tracked rolled-back patch `p` issues exactly
one engine call, `apply_patch p`; on successful redo `last_patch` becomes
`p` and `last_rolled_back_patch` is cleared. -/
theorem c6_undo_redo_one_call (s : CLIState) (p : String) (env : Env) :
    (s.last_patch = some p → (step s .undo env).calls = [.rollback p]) ∧
    (s.last_rolled_back_patch = some p →
      (step s .redo env).calls = [.applyPatch p] ∧
        (env.redoApplyRes = .ok () → (step s .redo env).state = ⟨some p, none⟩)) := by
  refine ⟨fun h => ?_, fun h => ⟨?_, fun hr => ?_⟩⟩
  · rcases hr : env.rollbackRes with _ | m | _ <;> simp [step, h, hr]
  · rcases hr : env.redoApplyRes with _ | m | _ <;> simp [step, h, hr]
  · simp [step, h, hr]

/-- C6, instantiated at a redo of `patch_000`. -/
theorem c6_witness :
    (step ⟨none, some "patch_000"⟩ .redo envAllOk).calls = [.applyPatch "patch_000"] ∧
    (step ⟨none, some "patch_000"⟩ .redo envAllOk).state = ⟨some "patch_000", none⟩ :=
  ⟨((c6_undo_redo_one_call ⟨none, some "patch_000"⟩ "patch_000" envAllOk).2 rfl).1,
    ((c6_undo_redo_one_call ⟨none, some "patch_000"⟩ "patch_000" envAllOk).2 rfl).2 rfl⟩

/-- C7: when a free-text instruction succeeds end to end, the handle
returned by `generate_patch` is the handle passed to `apply_patch` (the
call trace is exactly generate-then-apply on it) and becomes the new
`last_patch`; when the instruction fails anywhere, `last_patch` is
unchanged. -/
theorem c7_generate_apply_handle (s : CLIState) (text hdl : String) (env : Env) :
    (env.messagesRes = .ok () → env.promptRes = .ok () →
      env.generateRes = .ok hdl → env.applyRes = .ok () →
      (step s (.instruction text) env).calls = [.generatePatch, .applyPatch hdl] ∧
        (step s (.instruction text) env).state.last_patch = some hdl) ∧
    (instrSuccess env = false →
      (step s (.instruction text) env).state.last_patch = s.last_patch) := by
  constructor
  · intro h1 h2 h3 h4
    simp [step, h1, h2, h3, h4]
  · intro hf
    rcases hm : env.messagesRes with _ | m1 | _ <;>
      rcases hpr : env.promptRes with _ | m2 | _ <;>
      rcases hg : env.generateRes with pth | m3 | _ <;>
      rcases ha : env.applyRes with _ | m4 | _ <;>
      simp_all [step, instrSuccess, Outcome.isOk]

/-- C7, instantiated at a fully successful instruction. -/
theorem c7_witness :
    (step initState (.instruction "add feature") envAllOk).calls =
      [.generatePatch, .applyPatch "patch_001"] ∧
    (step initState (.instruction "add feature") envAllOk).state.last_patch =
      some "patch_001" :=
  (c7_generate_apply_handle initState "add feature" "patch_001" envAllOk).1 rfl rfl rfl rfl

/-- C8: a `KeyboardInterrupt` raised while processing any single command is
caught at the command-loop boundary: the loop continues, and the handler
itself modifies no slot — the state is exactly the state at the moment of
the interrupt (unchanged for `select`/`undo`/`redo`; for a free-text
instruction, `last_rolled_back_patch` had already been cleared by cli.py
line 224 before the interrupted call). -/
theorem c8_interrupt_caught (s : CLIState) (c : Command) (env : Env)
    (h : (step s c env).interrupted = true) :
    (step s c env).ctl = .cont ∧
      ((step s c env).state = s ∨ (step s c env).state = ⟨s.last_patch, none⟩) := by
  cases c with
  | exit => simp [step] at h
  | select =>
    rcases hs : env.selectRes with n | m | _ <;> simp only [step, hs] at h ⊢
    · split at h <;> simp at h
    · simp at h
    · simp
  | undo =>
    rcases hp : s.last_patch with _ | p <;>
      rcases hr : env.rollbackRes with _ | m | _ <;>
      simp only [step, hp, hr] at h ⊢ <;> simp_all
  | redo =>
    rcases hp : s.last_rolled_back_patch with _ | p <;>
      rcases hr : env.redoApplyRes with _ | m | _ <;>
      simp only [step, hp, hr] at h ⊢ <;> simp_all
  | instruction text =>
    rcases hm : env.messagesRes with _ | m1 | _ <;>
      rcases hpr : env.promptRes with _ | m2 | _ <;>
      rcases hg : env.generateRes with pth | m3 | _ <;>
      rcases ha : env.applyRes with _ | m4 | _ <;>
      simp only [step, hm, hpr, hg, ha] at h ⊢ <;> simp_all

/-- C8, instantiated at an interrupted rollback. -/
theorem c8_witness :
    (step ⟨some "p0", none⟩ .undo envIntr).ctl = .cont ∧
      ((step ⟨some "p0", none⟩ .undo envIntr).state = ⟨some "p0", none⟩ ∨
        (step ⟨some "p0", none⟩ .undo envIntr).state =
          ⟨CLIState.last_patch ⟨some "p0", none⟩, none⟩) :=
  c8_interrupt_caught ⟨some "p0", none⟩ .undo envIntr rfl

/-! ## Embedding of src/diffdev/gitignore.py (class GitignoreParser) -/

/-- Python `str.strip()`: remove leading and trailing whitespace.  Defined
over the character list so that it evaluates by kernel reduction. -/
def pyStrip (s : String) : String :=
  ⟨(((s.data.dropWhile Char.isWhitespace).reverse).dropWhile Char.isWhitespace).reverse⟩

/-- Python `s.startswith("#")`: the first character is `#`. -/
def startsWithHash (s : String) : Bool :=
  match s.data with
  | [] => false
  | c :: _ => c == '#'

/-- Python truthiness of a string: non-empty. -/
def pyNonEmpty (s : String) : Bool := !s.data.isEmpty

/-- `GitignoreParser.load_patterns` (gitignore.py lines 18-28) over the
lines of the `.gitignore` file; `none` models a missing file, for which the
method returns early leaving `self.patterns` empty.  Each raw line is
stripped (`str.strip`) and appended to the pattern list exactly when the
stripped line is non-empty (Python truthy) and does not start with `#`. -/
def load_patterns (gitignoreLines : Option (List String)) : List String :=
  match gitignoreLines with
  | none => []
  | some ls =>
    ls.foldl
      (fun pats rawLine =>
        let line := pyStrip rawLine
        if pyNonEmpty line && !startsWithHash line then pats ++ [line] else pats)
      []

/-- `GitignoreParser.should_ignore` (gitignore.py lines 30-36): a path is
ignored when some loaded pattern — with a trailing `/` removed — matches
the path or its basename.  The stdlib collaborators `fnmatch.fnmatch` and
`os.path.basename` are the function parameters `fnmatchFn` and
`basenameFn`. -/
def should_ignore (fnmatchFn : String → String → Bool) (basenameFn : String → String)
    (patterns : List String) (path : String) : Bool :=
  patterns.any fun rawPattern =>
    let pattern := if rawPattern.endsWith "/" then rawPattern.dropRight 1 else rawPattern
    fnmatchFn path pattern || fnmatchFn (basenameFn path) pattern

/-- C9: a `.gitignore` line that strips to the empty string or starts with
`#` contributes no pattern, and when the `.gitignore` file does not exist
(zero patterns loaded) `should_ignore` returns `false` for every path,
whatever the matching collaborators do. -/
theorem c9_blank_comment_lines_and_missing_file (prior : List String) (line : String)
    (h : pyNonEmpty (pyStrip line) = false ∨ startsWithHash (pyStrip line) = true) :
    load_patterns (some (prior ++ [line])) = load_patterns (some prior) ∧
    ∀ (fnmatchFn : String → String → Bool) (basenameFn : String → String) (path : String),
      should_ignore fnmatchFn basenameFn (load_patterns none) path = false := by
  constructor
  · simp only [load_patterns, List.foldl_append, List.foldl_cons, List.foldl_nil]
    rcases h with h | h <;> simp [h]
  · intro fnmatchFn basenameFn path
    rfl

/-- C9, instantiated: a comment line adds no pattern; with no `.gitignore`
even an everything-matching collaborator ignores nothing. -/
theorem c9_witness :
    load_patterns (some (["*.log", "build/"] ++ ["# temporary files"])) =
      load_patterns (some ["*.log", "build/"]) ∧
    should_ignore (fun _ _ => true) (fun s => s) (load_patterns none) "src/main.py" =
      false :=
  ⟨(c9_blank_comment_lines_and_missing_file ["*.log", "build/"] "# temporary files"
      (Or.inr (by decide))).1,
    (c9_blank_comment_lines_and_missing_file ["*.log", "build/"] "# temporary files"
      (Or.inr (by decide))).2 (fun _ _ => true) (fun s => s) "src/main.py"⟩

/-- Every loaded pattern is non-blank and does not start with `#`: blank
and comment lines are never treated as patterns. -/
theorem load_patterns_sound (ls : List String) (p : String)
    (hp : p ∈ load_patterns (some ls)) :
    pyNonEmpty p = true ∧ startsWithHash p = false := by
  rw [load_patterns] at hp
  induction ls using List.reverseRecOn with
  | nil => simp at hp
  | append_singleton front line ih =>
    rw [List.foldl_append, List.foldl_cons, List.foldl_nil] at hp
    by_cases hc : (pyNonEmpty (pyStrip line) && !startsWithHash (pyStrip line)) = true
    · rw [if_pos hc] at hp
      rcases List.mem_append.mp hp with hmem | hmem
      · exact ih hmem
      · rcases (Bool.and_eq_true _ _).mp hc with ⟨h1, h2⟩
        rcases List.mem_singleton.mp hmem with rfl
        exact ⟨h1, by simpa using h2⟩
    · rw [if_neg hc] at hp
      exact ih hp

/-! ## Embedding of src/diffdev/tree_utils.py -/

/-- A model filesystem entry: a readable text file with its `readlines`
lines, or a directory with its children (as produced by `iterdir`, in
arbitrary order). -/
inductive FSEntry where
  | file (name : String) (lines : List String)
  | dir (name : String) (children : List FSEntry)

/-- `path.name`. -/
def FSEntry.name : FSEntry → String
  | .file n _ => n
  | .dir n _ => n

/-- `path.is_dir()`. -/
def FSEntry.isDir : FSEntry → Bool
  | .file _ _ => false
  | .dir _ _ => true

/-- The sort key of `ProjectTreeGenerator.generate_tree` (tree_utils.py
line 81): `(not x.is_dir(), x.name.lower())` — directories first, then
case-insensitive name order. -/
def entryKey (e : FSEntry) : Bool × String := (!e.isDir, e.name.toLower)

/-- Comparison of sort keys in Python tuple order: `Bool` with
`False < True`, then lexicographic string comparison. -/
def entryLE (a b : FSEntry) : Prop :=
  (entryKey a).1 < (entryKey b).1 ∨
    ((entryKey a).1 = (entryKey b).1 ∧ (entryKey a).2 ≤ (entryKey b).2)

instance : DecidableRel entryLE := fun a b => by
  unfold entryLE; infer_instance

instance : IsTotal FSEntry entryLE :=
  ⟨by
    intro a b
    rcases lt_trichotomy (entryKey a).1 (entryKey b).1 with h | h | h
    · exact Or.inl (Or.inl h)
    · rcases le_total (entryKey a).2 (entryKey b).2 with h2 | h2
      · exact Or.inl (Or.inr ⟨h, h2⟩)
      · exact Or.inr (Or.inr ⟨h.symm, h2⟩)
    · exact Or.inr (Or.inl h)⟩

instance : IsTrans FSEntry entryLE :=
  ⟨by
    intro a b c hab hbc
    rcases hab with hab | ⟨e1, l1⟩ <;> rcases hbc with hbc | ⟨e2, l2⟩
    · exact Or.inl (lt_trans hab hbc)
    · exact Or.inl (lt_of_lt_of_le hab (le_of_eq e2))
    · exact Or.inl (lt_of_le_of_lt (le_of_eq e1) hbc)
    · exact Or.inr ⟨e1.trans e2, le_trans l1 l2⟩⟩

/-- Python's `sorted(entries, key=lambda x: (not x.is_dir(), x.name.lower()))`
(tree_utils.py line 81).  `sorted` is a stable sort; `List.insertionSort`
over the total preorder `entryLE` is stable as well, and stable sorts by
the same key coincide as functions. -/
def sortEntries (l : List FSEntry) : List FSEntry :=
  List.insertionSort entryLE l

/-- `ProjectTreeGenerator.should_skip` (tree_utils.py lines 67-77): skip
any entry named `.git`; otherwise, when a `GitignoreParser` was supplied
(modelled by `some` of its loaded pattern list), skip when `should_ignore`
matches the entry's path relative to the root. -/
def should_skip (fnmatchFn : String → String → Bool) (basenameFn : String → String)
    (gitignorePatterns : Option (List String)) (relPath : String) (e : FSEntry) : Bool :=
  if e.name = ".git" then true
  else
    match gitignorePatterns with
    | none => false
    | some pats => should_ignore fnmatchFn basenameFn pats relPath

/-- Python `str.rjust`: left-pad with spaces to the given width. -/
def rjust (s : String) (width : Nat) : String :=
  String.mk (List.replicate (width - s.length) ' ') ++ s

/-- `FileContentFormatter.format_file_content` (tree_utils.py lines 16-42)
on a readable text file: line numbers right-justified to the width of the
line count, `" | "` separators, 80-dash rules, and the file path as
header. -/
def format_file_content (filePath : String) (lines : List String) : String :=
  let padding := (toString lines.length).length
  let formatted := lines.enum.map fun iv => rjust (toString (iv.1 + 1)) padding ++ " | " ++ iv.2
  let separator := String.mk (List.replicate 80 '-')
  "\n" ++ filePath ++ ":\n" ++ separator ++ "\n" ++ String.join formatted ++ "\n" ++
    separator ++ "\n"

/-- Relative path of a child entry, `str(entry.relative_to(root_path))`:
just the name for a direct child of the root, otherwise
`parentRel/name`. -/
def childRel (parentRel name : String) : String :=
  if parentRel = "" then name else parentRel ++ "/" ++ name

/-- Display path of a child entry (the `Path` printed in file-content
headers). -/
def childPath (parentPath name : String) : String :=
  parentPath ++ "/" ++ name

/-- `self.indent` (tree_utils.py line 62). -/
def indentSym : String := "    "

/-- `self.branch` (tree_utils.py line 63). -/
def branchSym : String := "├── "

/-- `self.last_branch` (tree_utils.py line 64). -/
def lastBranchSym : String := "└── "

/-- `self.pipe` (tree_utils.py line 65). -/
def pipeSym : String := "│   "

/-- Lines 81-89 of tree_utils.py: sort the entries of one directory with
the Python key, then drop the ones `should_skip` rejects. -/
def entriesOf (fm : String → String → Bool) (bn : String → String)
    (gp : Option (List String)) (parentRel : String) (children : List FSEntry) :
    List FSEntry :=
  (sortEntries children).filter fun e => !(should_skip fm bn gp (childRel parentRel e.name) e)

mutual

/-- Size of an entry, for termination of the tree walk. -/
def esize : FSEntry → Nat
  | .file _ _ => 1
  | .dir _ chs => 1 + elsize chs

/-- Total size of a list of entries. -/
def elsize : List FSEntry → Nat
  | [] => 0
  | e :: rest => esize e + elsize rest

end

theorem one_le_esize (e : FSEntry) : 1 ≤ esize e := by
  cases e with
  | file n lns => rw [esize]
  | dir n chs => rw [esize]; omega

theorem elsize_filter_le (p : FSEntry → Bool) (l : List FSEntry) :
    elsize (List.filter p l) ≤ elsize l := by
  induction l with
  | nil => exact Nat.le_refl _
  | cons e rest ih =>
    rw [List.filter_cons]
    split
    · rw [elsize, elsize]; omega
    · rw [elsize]; omega

theorem elsize_eq_sum (l : List FSEntry) : elsize l = (l.map esize).sum := by
  induction l with
  | nil => rfl
  | cons e rest ih => rw [elsize, List.map_cons, List.sum_cons, ih]

theorem elsize_sortEntries (l : List FSEntry) : elsize (sortEntries l) = elsize l := by
  rw [elsize_eq_sum, elsize_eq_sum]
  exact ((List.perm_insertionSort entryLE l).map esize).sum_eq

theorem elsize_entriesOf_le (fm : String → String → Bool) (bn : String → String)
    (gp : Option (List String)) (parentRel : String) (l : List FSEntry) :
    elsize (entriesOf fm bn gp parentRel l) ≤ elsize l := by
  unfold entriesOf
  exact le_trans (elsize_filter_le _ _) (le_of_eq (elsize_sortEntries l))

mutual

/-- The `for` loop of `generate_tree` (tree_utils.py lines 91-102) over the
prepared entry list of one directory: append the tree line for each entry
(line 95), append the formatted body of each file to the contents block
(lines 97-98), and recurse into each directory with the extended drawing
head (lines 100-102).  Returns the pair (output lines, contents blocks)
contributed by these entries. -/
def genLoop (fm : String → String → Bool) (bn : String → String)
    (gp : Option (List String)) (entries : List FSEntry)
    (dirRel dirPath pre : String) : List String × List String :=
  match entries with
  | [] => ([], [])
  | e :: rest =>
    let isLast := rest.isEmpty
    let line := (pre ++ (if isLast then lastBranchSym else branchSym)) ++ e.name
    let sub :=
      match e with
      | .file nm lns =>
        (([] : List String), [format_file_content (childPath dirPath nm) lns])
      | .dir nm chs =>
        genTreeAux fm bn gp chs (childRel dirRel nm) (childPath dirPath nm)
          (pre ++ (if isLast then indentSym else pipeSym))
    let restRes := genLoop fm bn gp rest dirRel dirPath pre
    (line :: (sub.1 ++ restRes.1), sub.2 ++ restRes.2)
termination_by 2 * elsize entries
decreasing_by
  · rw [elsize, esize]; omega
  · have h := one_le_esize e; rw [elsize]; omega

/-- `ProjectTreeGenerator.generate_tree` (tree_utils.py lines 79-102)
applied to the children of one directory: sort with the Python key, filter
with `should_skip`, then run the entry loop. -/
def genTreeAux (fm : String → String → Bool) (bn : String → String)
    (gp : Option (List String)) (children : List FSEntry)
    (dirRel dirPath pre : String) : List String × List String :=
  genLoop fm bn gp (entriesOf fm bn gp dirRel children) dirRel dirPath pre
termination_by 2 * elsize children + 1
decreasing_by
  · have h := elsize_entriesOf_le fm bn gp dirRel children; omega

end

/-- `ProjectTreeGenerator.get_tree` (tree_utils.py lines 104-117): generate
from the root directory's children and join the tree block and the
contents block. -/
def get_tree (fm : String → String → Bool) (bn : String → String)
    (gp : Option (List String)) (rootPath : String) (rootChildren : List FSEntry) :
    String :=
  let res := genTreeAux fm bn gp rootChildren "" rootPath ""
  String.intercalate "\n"
    ["\nFile Tree:", String.intercalate "\n" res.1, "\nFile Contents:",
      String.join res.2]

mutual

/-- The entry with every `.git`-named entry removed from directory
children, at every depth. -/
def scrubEntry : FSEntry → FSEntry
  | .file n lns => .file n lns
  | .dir n chs => .dir n (scrubList chs)

/-- The child list with `.git`-named entries removed at every depth. -/
def scrubList : List FSEntry → List FSEntry
  | [] => []
  | e :: rest =>
    if e.name = ".git" then scrubList rest else scrubEntry e :: scrubList rest

end

theorem scrubEntry_name (e : FSEntry) : (scrubEntry e).name = e.name := by
  cases e <;> rfl

theorem scrubEntry_isDir (e : FSEntry) : (scrubEntry e).isDir = e.isDir := by
  cases e <;> rfl

theorem entryKey_scrubEntry (e : FSEntry) : entryKey (scrubEntry e) = entryKey e := by
  unfold entryKey
  rw [scrubEntry_name, scrubEntry_isDir]

theorem entryLE_scrub_iff (a b : FSEntry) :
    entryLE (scrubEntry a) (scrubEntry b) ↔ entryLE a b := by
  unfold entryLE
  rw [entryKey_scrubEntry, entryKey_scrubEntry]

theorem scrubList_eq_filter_map (l : List FSEntry) :
    scrubList l = (l.filter fun e => !(e.name == ".git")).map scrubEntry := by
  induction l with
  | nil => rfl
  | cons e rest ih =>
    rw [scrubList, List.filter_cons]
    by_cases h : e.name = ".git"
    · simp [h, ih]
    · simp [h, ih]

theorem orderedInsert_map_scrub (a : FSEntry) (l : List FSEntry) :
    List.orderedInsert entryLE (scrubEntry a) (l.map scrubEntry) =
      (List.orderedInsert entryLE a l).map scrubEntry := by
  induction l with
  | nil => rfl
  | cons b rest ih =>
    rw [List.map_cons, List.orderedInsert, List.orderedInsert]
    by_cases h : entryLE a b
    · rw [if_pos ((entryLE_scrub_iff a b).mpr h), if_pos h, List.map_cons, List.map_cons]
    · rw [if_neg (fun hc => h ((entryLE_scrub_iff a b).mp hc)), if_neg h, List.map_cons, ih]

theorem sortEntries_map_scrub (l : List FSEntry) :
    sortEntries (l.map scrubEntry) = (sortEntries l).map scrubEntry := by
  unfold sortEntries
  induction l with
  | nil => rfl
  | cons a rest ih =>
    rw [List.map_cons, List.insertionSort, List.insertionSort, ih, orderedInsert_map_scrub]

theorem orderedInsert_of_forall_le {a : FSEntry} {l : List FSEntry}
    (h : ∀ x ∈ l, entryLE a x) : List.orderedInsert entryLE a l = a :: l := by
  cases l with
  | nil => rfl
  | cons b rest => rw [List.orderedInsert, if_pos (h b (List.mem_cons_self b rest))]

theorem filter_orderedInsert (p : FSEntry → Bool) (a : FSEntry) (l : List FSEntry)
    (hs : List.Sorted entryLE l) :
    (List.orderedInsert entryLE a l).filter p =
      if p a then List.orderedInsert entryLE a (l.filter p) else l.filter p := by
  induction l with
  | nil =>
    by_cases hpa : p a = true <;>
      simp [List.orderedInsert, List.filter_cons, hpa]
  | cons b rest ih =>
    rw [List.orderedInsert]
    by_cases hab : entryLE a b
    · rw [if_pos hab, List.filter_cons, List.filter_cons]
      by_cases hpa : p a = true
      · rw [if_pos hpa, if_pos hpa]
        by_cases hpb : p b = true
        · rw [if_pos hpb, List.orderedInsert, if_pos hab]
        · rw [if_neg hpb]
          refine (orderedInsert_of_forall_le fun x hx => ?_).symm
          exact Trans.trans hab
            (List.rel_of_sorted_cons hs x (List.mem_of_mem_filter hx))
      · rw [if_neg hpa, if_neg hpa]
    · rw [if_neg hab, List.filter_cons, List.filter_cons]
      have ihr := ih hs.of_cons
      by_cases hpb : p b = true
      · rw [if_pos hpb, if_pos hpb, ihr]
        by_cases hpa : p a = true
        · rw [if_pos hpa, if_pos hpa, List.orderedInsert, if_neg hab]
        · rw [if_neg hpa, if_neg hpa]
      · rw [if_neg hpb, if_neg hpb, ihr]

theorem filter_sortEntries (p : FSEntry → Bool) (l : List FSEntry) :
    (sortEntries l).filter p = sortEntries (l.filter p) := by
  unfold sortEntries
  induction l with
  | nil => rfl
  | cons a rest ih =>
    rw [List.insertionSort,
      filter_orderedInsert p a _ (List.sorted_insertionSort entryLE rest), ih,
      List.filter_cons]
    by_cases hpa : p a = true
    · rw [if_pos hpa, if_pos hpa, List.insertionSort]
    · rw [if_neg hpa, if_neg hpa]

theorem should_skip_scrubEntry (fm : String → String → Bool) (bn : String → String)
    (gp : Option (List String)) (relPath : String) (e : FSEntry) :
    should_skip fm bn gp relPath (scrubEntry e) = should_skip fm bn gp relPath e := by
  unfold should_skip
  rw [scrubEntry_name]

theorem should_skip_dotgit (fm : String → String → Bool) (bn : String → String)
    (gp : Option (List String)) (relPath : String) (e : FSEntry)
    (h : e.name = ".git") : should_skip fm bn gp relPath e = true := by
  unfold should_skip
  rw [if_pos h]

theorem entriesOf_scrubList (fm : String → String → Bool) (bn : String → String)
    (gp : Option (List String)) (parentRel : String) (chs : List FSEntry) :
    entriesOf fm bn gp parentRel (scrubList chs) =
      (entriesOf fm bn gp parentRel chs).map scrubEntry := by
  have hps : ∀ e : FSEntry,
      ((fun x => !(should_skip fm bn gp (childRel parentRel x.name) x)) ∘ scrubEntry) e =
        !(should_skip fm bn gp (childRel parentRel e.name) e) := by
    intro e
    show (!(should_skip fm bn gp (childRel parentRel (scrubEntry e).name) (scrubEntry e))) =
      (!(should_skip fm bn gp (childRel parentRel e.name) e))
    rw [scrubEntry_name, should_skip_scrubEntry]
  have hpq : ∀ e : FSEntry,
      (!(should_skip fm bn gp (childRel parentRel e.name) e) && !(e.name == ".git")) =
        !(should_skip fm bn gp (childRel parentRel e.name) e) := by
    intro e
    by_cases h : e.name = ".git"
    · rw [should_skip_dotgit fm bn gp _ e h]
      simp
    · have hq : (e.name == ".git") = false := by
        simp [h]
      rw [hq]
      simp
  unfold entriesOf
  rw [scrubList_eq_filter_map, sortEntries_map_scrub, List.filter_map,
    List.filter_congr (fun e _ => hps e), ← filter_sortEntries, List.filter_filter,
    List.filter_congr (fun e _ => hpq e)]

theorem scrub_genLoop_genTreeAux (n : Nat) :
    (∀ (fm : String → String → Bool) (bn : String → String) (gp : Option (List String))
        (entries : List FSEntry) (dirRel dirPath pre : String), elsize entries ≤ n →
      genLoop fm bn gp (entries.map scrubEntry) dirRel dirPath pre =
        genLoop fm bn gp entries dirRel dirPath pre) ∧
    (∀ (fm : String → String → Bool) (bn : String → String) (gp : Option (List String))
        (chs : List FSEntry) (dirRel dirPath pre : String), elsize chs ≤ n →
      genTreeAux fm bn gp (scrubList chs) dirRel dirPath pre =
        genTreeAux fm bn gp chs dirRel dirPath pre) := by
  induction n using Nat.strong_induction_on with
  | _ n ih =>
    have hL : ∀ (fm : String → String → Bool) (bn : String → String)
        (gp : Option (List String)) (entries : List FSEntry) (dirRel dirPath pre : String),
        elsize entries ≤ n →
        genLoop fm bn gp (entries.map scrubEntry) dirRel dirPath pre =
          genLoop fm bn gp entries dirRel dirPath pre := by
      intro fm bn gp entries dirRel dirPath pre hsz
      cases entries with
      | nil => rfl
      | cons e rest =>
        have hre : elsize rest < n := by
          have h1 := one_le_esize e
          rw [elsize] at hsz
          omega
        have hloop := (ih (elsize rest) hre).1 fm bn gp rest dirRel dirPath pre (le_refl _)
        have hE : (rest.map scrubEntry).isEmpty = rest.isEmpty := by
          cases rest <;> rfl
        cases e with
        | file nm lns =>
          simp only [List.map_cons, scrubEntry, genLoop, hE, hloop]
        | dir nm chs =>
          have hchs : elsize chs < n := by
            rw [elsize, esize] at hsz
            omega
          have htree := (ih (elsize chs) hchs).2 fm bn gp chs (childRel dirRel nm)
            (childPath dirPath nm) (pre ++ (if rest.isEmpty then indentSym else pipeSym))
            (le_refl _)
          simp only [List.map_cons, scrubEntry, genLoop, hE, hloop, FSEntry.name, htree]
    refine ⟨hL, ?_⟩
    intro fm bn gp chs dirRel dirPath pre hsz
    rw [genTreeAux, genTreeAux, entriesOf_scrubList]
    exact hL fm bn gp (entriesOf fm bn gp dirRel chs) dirRel dirPath pre
      (le_trans (elsize_entriesOf_le fm bn gp dirRel chs) hsz)

/-- C10: the output of `get_tree` — both the tree listing and the
file-contents block — is identical whether or not any `.git`-named
directory entry (with its entire subtree) is present, at any depth, for
every gitignore configuration including the one where no `GitignoreParser`
is supplied: `.git` and its contents never appear in the output. -/
theorem c10_git_never_included (fm : String → String → Bool) (bn : String → String)
    (gp : Option (List String)) (rootPath : String) (chs : List FSEntry)
    (dirRel dirPath pre : String) :
    genTreeAux fm bn gp (scrubList chs) dirRel dirPath pre =
      genTreeAux fm bn gp chs dirRel dirPath pre ∧
    get_tree fm bn gp rootPath (scrubList chs) = get_tree fm bn gp rootPath chs := by
  constructor
  · exact (scrub_genLoop_genTreeAux (elsize chs)).2 fm bn gp chs dirRel dirPath pre
      (le_refl _)
  · unfold get_tree
    rw [(scrub_genLoop_genTreeAux (elsize chs)).2 fm bn gp chs "" rootPath "" (le_refl _)]
